import Mathlib

/-!
Verification of the quantitative analysis engine of idx-stock-sense.

The TypeScript sources are embedded shallowly over exact rational
arithmetic: JavaScript numbers become rationals, JavaScript
Math.round (round half toward positive infinity) becomes the
function jround below, thrown exceptions become Except values.
The RSI, EMA, MACD and ATR series come from the third-party
technicalindicators package, which is an external collaborator of
this repository; the analyzers read only the latest value of each
of those series, so the decision logic is verified as a function
of those latest indicator values.
-/

namespace IdxStockSense

/-- JavaScript Math.round: round half toward positive infinity. -/
def jround (x : ℚ) : ℤ := ⌊x + 1 / 2⌋

/-- An OHLCV bar (the StockData type of the repository). The field
opn is the open price, renamed because open is a reserved word. -/
structure StockData where
  timestamp : ℤ
  opn : ℚ
  high : ℚ
  low : ℚ
  close : ℚ
  volume : ℚ
deriving DecidableEq

/-- Trading signal of the swing analyzer. -/
inductive Signal where
  | BUY
  | SELL
  | NEUTRAL
deriving DecidableEq

/-- The signal and confidence decision of analyzeStock, a direct
transcription of the if chain in the analyzer: BUY when
latestRSI < 30 and currentPrice > latestEMA200, with confidence
min(50 + rsiStrength * 30 + priceStrength * 20, 95); otherwise SELL
when latestRSI > 70, with confidence min(50 + rsiStrength * 30, 95);
otherwise NEUTRAL with confidence 30. -/
def swingDecision (latestRSI currentPrice latestEMA200 : ℚ) : Signal × ℚ :=
  if latestRSI < 30 ∧ latestEMA200 < currentPrice then
    let rsiStrength := (30 - latestRSI) / 30
    let priceStrength := min ((currentPrice - latestEMA200) / latestEMA200) (1 / 10) * 10
    (Signal.BUY, min (50 + rsiStrength * 30 + priceStrength * 20) 95)
  else if 70 < latestRSI then
    let rsiStrength := (latestRSI - 70) / 30
    (Signal.SELL, min (50 + rsiStrength * 30) 95)
  else
    (Signal.NEUTRAL, 30)

/-- Lower and upper integer bounds survive JavaScript rounding. -/
lemma jround_bounds {x : ℚ} {a b : ℤ} (h1 : (a : ℚ) ≤ x) (h2 : x ≤ (b : ℚ)) :
    a ≤ jround x ∧ jround x ≤ b := by
  constructor
  · exact Int.le_floor.mpr (by linarith)
  · have hlt : jround x < b + 1 := by
      unfold jround
      exact Int.floor_lt.mpr (by push_cast; linarith)
    omega

/-- C1: for every input whose latest indicator values are latestRSI,
currentPrice and latestEMA200, the swing signal is BUY exactly when
latestRSI < 30 and currentPrice > latestEMA200, SELL exactly when
latestRSI > 70 and the BUY condition is false, and NEUTRAL in every
other case. The analyzer reads the input bar series only through
these latest values, so the quantification over them covers every
bar series of at least 200 bars. -/
theorem swingSignal_cases (rsi price ema200 : ℚ) :
    ((swingDecision rsi price ema200).1 = Signal.BUY ↔ rsi < 30 ∧ ema200 < price) ∧
    ((swingDecision rsi price ema200).1 = Signal.SELL ↔
      70 < rsi ∧ ¬(rsi < 30 ∧ ema200 < price)) ∧
    ((swingDecision rsi price ema200).1 = Signal.NEUTRAL ↔
      ¬(rsi < 30 ∧ ema200 < price) ∧ ¬(70 < rsi)) := by
  unfold swingDecision
  split_ifs with h1 h2 <;> simp_all

/-- C2: the confidence of the swing decision lies in the interval
from 30 to 95, it is exactly 30 on a NEUTRAL signal, and the
JavaScript-rounded confidence score reported by the analyzer stays
in the same integer interval, provided the latest EMA200 is
positive (it is an average of positive traded prices). -/
theorem swingConfidence_bounds (rsi price ema200 : ℚ) (he : 0 < ema200) :
    (30 ≤ (swingDecision rsi price ema200).2 ∧ (swingDecision rsi price ema200).2 ≤ 95) ∧
    ((swingDecision rsi price ema200).1 = Signal.NEUTRAL →
      (swingDecision rsi price ema200).2 = 30) ∧
    (30 ≤ jround (swingDecision rsi price ema200).2 ∧
      jround (swingDecision rsi price ema200).2 ≤ 95) := by
  have key : (30 ≤ (swingDecision rsi price ema200).2 ∧
      (swingDecision rsi price ema200).2 ≤ 95) ∧
      ((swingDecision rsi price ema200).1 = Signal.NEUTRAL →
        (swingDecision rsi price ema200).2 = 30) := by
    unfold swingDecision
    split_ifs with h1 h2
    · refine ⟨⟨?_, min_le_right _ _⟩, by simp⟩
      have hrs : 0 < (30 - rsi) / 30 := by
        apply div_pos <;> linarith [h1.1]
      have hdiv : 0 < (price - ema200) / ema200 :=
        div_pos (by linarith [h1.2]) he
      have hps : 0 < min ((price - ema200) / ema200) (1 / 10) :=
        lt_min hdiv (by norm_num)
      have : (30 : ℚ) ≤ 50 + (30 - rsi) / 30 * 30 +
          min ((price - ema200) / ema200) (1 / 10) * 10 * 20 := by nlinarith
      exact le_min this (by norm_num)
    · refine ⟨⟨?_, min_le_right _ _⟩, by simp⟩
      have hrs : 0 < (rsi - 70) / 30 := by
        apply div_pos <;> linarith
      have : (30 : ℚ) ≤ 50 + (rsi - 70) / 30 * 30 := by nlinarith
      exact le_min this (by norm_num)
    · exact ⟨⟨by norm_num, by norm_num⟩, fun _ => rfl⟩
  refine ⟨key.1, key.2, ?_⟩
  exact jround_bounds (a := 30) (b := 95) (by exact_mod_cast key.1.1)
    (by exact_mod_cast key.1.2)

/-- Witness for C2 at latestRSI 20, currentPrice 110, latestEMA200 100. -/
theorem swingConfidence_bounds_witness :
    (0 : ℚ) < 100 ∧
    ((30 ≤ (swingDecision 20 110 100).2 ∧ (swingDecision 20 110 100).2 ≤ 95) ∧
     ((swingDecision 20 110 100).1 = Signal.NEUTRAL →
       (swingDecision 20 110 100).2 = 30) ∧
     (30 ≤ jround (swingDecision 20 110 100).2 ∧
       jround (swingDecision 20 110 100).2 ≤ 95)) :=
  ⟨by norm_num, swingConfidence_bounds 20 110 100 (by norm_num)⟩

/-- One step of the OBV loop: add the volume when the close rose,
subtract it when the close fell, keep the running total otherwise. -/
def obvStep (prev prevClose currentClose v : ℚ) : ℚ :=
  if prevClose < currentClose then prev + v
  else if currentClose < prevClose then prev - v
  else prev

/-- The OBV loop from index one onward: prev is the running total,
prevClose the close of the previous bar. -/
def obvGo (prev prevClose : ℚ) : List ℚ → List ℚ → List ℚ
  | c :: cs, v :: vs => obvStep prev prevClose c v :: obvGo (obvStep prev prevClose c v) c cs vs
  | _, _ => []

/-- The OBV series: the first value is the first volume, later
values follow the close comparison rule. -/
def obvRun : List ℚ → List ℚ → List ℚ
  | c :: cs, v :: vs => v :: obvGo v c cs vs
  | _, _ => []

/-- calculateOBV from indicators.ts: throws on a length mismatch,
otherwise returns the running OBV series. -/
def calculateOBV (closes volumes : List ℚ) : Except String (List ℚ) :=
  if closes.length = volumes.length then Except.ok (obvRun closes volumes)
  else Except.error "Closes and volumes arrays must have the same length for OBV calculation."

lemma obvGo_length : ∀ (cs vs : List ℚ) (prev prevClose : ℚ),
    cs.length = vs.length → (obvGo prev prevClose cs vs).length = cs.length := by
  intro cs
  induction cs with
  | nil => intro vs prev prevClose h; rfl
  | cons c cs2 ih =>
    intro vs prev prevClose h
    cases vs with
    | nil => simp at h
    | cons v vs2 =>
      simp only [obvGo, List.length_cons]
      rw [ih vs2 _ c (by simpa using h)]

lemma obvGo_adj : ∀ (cs vs : List ℚ) (prev prevClose : ℚ) (i : ℕ),
    i + 1 < (prev :: obvGo prev prevClose cs vs).length →
    (prev :: obvGo prev prevClose cs vs).getD (i + 1) 0 =
      obvStep ((prev :: obvGo prev prevClose cs vs).getD i 0)
        ((prevClose :: cs).getD i 0) ((prevClose :: cs).getD (i + 1) 0) (vs.getD i 0) := by
  intro cs
  induction cs with
  | nil =>
    intro vs prev prevClose i hi
    simp [obvGo] at hi
  | cons c cs2 ih =>
    intro vs prev prevClose i hi
    cases vs with
    | nil => simp [obvGo] at hi
    | cons v vs2 =>
      cases i with
      | zero => simp [obvGo]
      | succ j =>
        have hi2 : j + 1 < (obvStep prev prevClose c v ::
            obvGo (obvStep prev prevClose c v) c cs2 vs2).length := by
          simpa [obvGo] using hi
        have := ih vs2 (obvStep prev prevClose c v) c j hi2
        simpa [obvGo, List.getD_cons_succ] using this

/-- C6: for equal-length non-empty inputs the OBV series starts at
the first volume and each step adds, subtracts or keeps the volume
according to the close comparison; on a length mismatch the
computation fails with the length-mismatch error and produces no
output. -/
theorem obv_correct (closes volumes : List ℚ) :
    (closes.length = volumes.length → closes ≠ [] →
      ∃ l, calculateOBV closes volumes = Except.ok l ∧ l.length = closes.length ∧
        l.headD 0 = volumes.headD 0 ∧
        ∀ i : ℕ, i + 1 < l.length →
          l.getD (i + 1) 0 - l.getD i 0 =
            (if closes.getD i 0 < closes.getD (i + 1) 0 then volumes.getD (i + 1) 0
             else if closes.getD (i + 1) 0 < closes.getD i 0 then -(volumes.getD (i + 1) 0)
             else 0)) ∧
    (closes.length ≠ volumes.length →
      calculateOBV closes volumes = Except.error
        "Closes and volumes arrays must have the same length for OBV calculation.") := by
  constructor
  · intro hlen hne
    match closes, volumes, hlen, hne with
    | [], _, _, hne => exact absurd rfl hne
    | c :: cs, [], hlen, _ => simp at hlen
    | c :: cs, v :: vs, hlen, _ =>
      refine ⟨v :: obvGo v c cs vs, ?_, ?_, rfl, ?_⟩
      · unfold calculateOBV
        rw [if_pos hlen]
        rfl
      · simp only [List.length_cons]
        rw [obvGo_length cs vs v c (by simpa using hlen)]
      · intro i hi
        rw [obvGo_adj cs vs v c i hi]
        have hv : (v :: vs).getD (i + 1) 0 = vs.getD i 0 := List.getD_cons_succ
        rw [hv]
        unfold obvStep
        split_ifs <;> ring
  · intro hlen
    unfold calculateOBV
    rw [if_neg hlen]

/-- Witness for C6 on closes 1,2,2,1 and volumes 5,6,7,8. -/
theorem obv_correct_witness :
    (([1, 2, 2, 1] : List ℚ).length = ([5, 6, 7, 8] : List ℚ).length ∧
      ([1, 2, 2, 1] : List ℚ) ≠ []) ∧
    (∃ l, calculateOBV [1, 2, 2, 1] [5, 6, 7, 8] = Except.ok l ∧
      l.length = ([1, 2, 2, 1] : List ℚ).length ∧
      l.headD 0 = ([5, 6, 7, 8] : List ℚ).headD 0 ∧
      ∀ i : ℕ, i + 1 < l.length →
        l.getD (i + 1) 0 - l.getD i 0 =
          (if ([1, 2, 2, 1] : List ℚ).getD i 0 < ([1, 2, 2, 1] : List ℚ).getD (i + 1) 0 then
            ([5, 6, 7, 8] : List ℚ).getD (i + 1) 0
           else if ([1, 2, 2, 1] : List ℚ).getD (i + 1) 0 < ([1, 2, 2, 1] : List ℚ).getD i 0 then
            -(([5, 6, 7, 8] : List ℚ).getD (i + 1) 0)
           else 0)) :=
  ⟨⟨rfl, by simp⟩, (obv_correct [1, 2, 2, 1] [5, 6, 7, 8]).1 rfl (by simp)⟩

/-- Bandar flow (smart money) status. -/
inductive BandarStatus where
  | AKUMULASI
  | DISTRIBUSI
  | MARKUP
  | MARKDOWN
  | NEUTRAL
deriving DecidableEq

/-- The divergence classification of the bandar flow block of
analyzeStock, evaluated in source order with a significant
threshold of 2 percent and a flat-price threshold of 1 percent. -/
def bandarFlowStatusOf (priceChangePercent obvChangePercent : ℚ) : BandarStatus :=
  if |priceChangePercent| < 1 / 100 ∧ 1 / 50 < obvChangePercent then BandarStatus.AKUMULASI
  else if |priceChangePercent| < 1 / 100 ∧ obvChangePercent < -(1 / 50) then
    BandarStatus.DISTRIBUSI
  else if 0 < priceChangePercent ∧ 0 < obvChangePercent then BandarStatus.MARKUP
  else if priceChangePercent < 0 ∧ obvChangePercent < 0 then BandarStatus.MARKDOWN
  else BandarStatus.NEUTRAL

/-- The bandar flow status computed by analyzeStock on the trailing
window of the last 20 bars: OBV over the window, end-to-end slopes
divided by the window length, slopes normalized by the first close
and by the absolute first OBV value (zero when the first OBV value
is zero), then the divergence classification. -/
def analyzeBandarFlow (last20Closes last20Volumes : List ℚ) : BandarStatus :=
  let obvValues := obvRun last20Closes last20Volumes
  let priceSlope := (last20Closes.getLastD 0 - last20Closes.headD 0) /
    (last20Closes.length : ℚ)
  let obvSlope := (obvValues.getLastD 0 - obvValues.headD 0) / (obvValues.length : ℚ)
  let priceChangePercent := priceSlope / last20Closes.headD 0
  let obvChangePercent :=
    if obvValues.headD 0 ≠ 0 then obvSlope / |obvValues.headD 0| else 0
  bandarFlowStatusOf priceChangePercent obvChangePercent

/-- The normalized price change of the bandar flow window: the
end-to-end price slope over the window length, divided by the first
close. -/
def bandarPricePercent (closes : List ℚ) : ℚ :=
  ((closes.getLastD 0 - closes.headD 0) / (closes.length : ℚ)) / closes.headD 0

/-- The normalized OBV change of the bandar flow window: the
end-to-end OBV slope over the OBV length, divided by the absolute
first OBV value, and zero when the first OBV value is zero. -/
def bandarObvPercent (closes volumes : List ℚ) : ℚ :=
  if (obvRun closes volumes).headD 0 ≠ 0 then
    (((obvRun closes volumes).getLastD 0 - (obvRun closes volumes).headD 0) /
      ((obvRun closes volumes).length : ℚ)) / |(obvRun closes volumes).headD 0|
  else 0

lemma analyzeBandarFlow_eq (closes volumes : List ℚ) :
    analyzeBandarFlow closes volumes =
      bandarFlowStatusOf (bandarPricePercent closes) (bandarObvPercent closes volumes) := rfl

/-- C5: on a trailing window of exactly 20 bars with a nonzero first
close, the bandar flow status is decided by the first matching rule
in the fixed source order, with priceChangePercent the price slope
over the first close and obvChangePercent the OBV slope over the
absolute first OBV value, zero when the first OBV value is zero. -/
theorem bandarFlow_first_match (closes volumes : List ℚ)
    (h1 : closes.length = 20) (h2 : volumes.length = 20) (hc : closes.headD 0 ≠ 0) :
    (analyzeBandarFlow closes volumes = BandarStatus.AKUMULASI ↔
      |bandarPricePercent closes| < 1 / 100 ∧ 1 / 50 < bandarObvPercent closes volumes) ∧
    (analyzeBandarFlow closes volumes = BandarStatus.DISTRIBUSI ↔
      ¬(|bandarPricePercent closes| < 1 / 100 ∧
          1 / 50 < bandarObvPercent closes volumes) ∧
        (|bandarPricePercent closes| < 1 / 100 ∧
          bandarObvPercent closes volumes < -(1 / 50))) ∧
    (analyzeBandarFlow closes volumes = BandarStatus.MARKUP ↔
      ¬(|bandarPricePercent closes| < 1 / 100 ∧
          1 / 50 < bandarObvPercent closes volumes) ∧
        ¬(|bandarPricePercent closes| < 1 / 100 ∧
          bandarObvPercent closes volumes < -(1 / 50)) ∧
        (0 < bandarPricePercent closes ∧ 0 < bandarObvPercent closes volumes)) ∧
    (analyzeBandarFlow closes volumes = BandarStatus.MARKDOWN ↔
      ¬(|bandarPricePercent closes| < 1 / 100 ∧
          1 / 50 < bandarObvPercent closes volumes) ∧
        ¬(|bandarPricePercent closes| < 1 / 100 ∧
          bandarObvPercent closes volumes < -(1 / 50)) ∧
        ¬(0 < bandarPricePercent closes ∧ 0 < bandarObvPercent closes volumes) ∧
        (bandarPricePercent closes < 0 ∧ bandarObvPercent closes volumes < 0)) ∧
    (analyzeBandarFlow closes volumes = BandarStatus.NEUTRAL ↔
      ¬(|bandarPricePercent closes| < 1 / 100 ∧
          1 / 50 < bandarObvPercent closes volumes) ∧
        ¬(|bandarPricePercent closes| < 1 / 100 ∧
          bandarObvPercent closes volumes < -(1 / 50)) ∧
        ¬(0 < bandarPricePercent closes ∧ 0 < bandarObvPercent closes volumes) ∧
        ¬(bandarPricePercent closes < 0 ∧ bandarObvPercent closes volumes < 0)) := by
  rw [analyzeBandarFlow_eq]
  unfold bandarFlowStatusOf
  split_ifs with ha hb hm hd <;> simp_all

/-- A flat 20-bar sample window used to witness C5. -/
def sampleCloses : List ℚ :=
  [100, 100, 100, 100, 100, 100, 100, 100, 100, 100,
   100, 100, 100, 100, 100, 100, 100, 100, 100, 100]

/-- The volumes of the sample window used to witness C5. -/
def sampleVolumes : List ℚ :=
  [10, 10, 10, 10, 10, 10, 10, 10, 10, 10,
   10, 10, 10, 10, 10, 10, 10, 10, 10, 10]

/-- Witness for C5 on the flat sample window. -/
theorem bandarFlow_first_match_witness :
    (sampleCloses.length = 20 ∧ sampleVolumes.length = 20 ∧ sampleCloses.headD 0 ≠ 0) ∧
    (analyzeBandarFlow sampleCloses sampleVolumes = BandarStatus.AKUMULASI ↔
      |bandarPricePercent sampleCloses| < 1 / 100 ∧
        1 / 50 < bandarObvPercent sampleCloses sampleVolumes) :=
  ⟨⟨rfl, rfl, by norm_num [sampleCloses]⟩,
    (bandarFlow_first_match sampleCloses sampleVolumes rfl rfl
      (by norm_num [sampleCloses])).1⟩

/-- The typical price series, the series the specification expects
back from VWAP when every volume is zero. -/
def typicalPricesSpec : List ℚ → List ℚ → List ℚ → List ℚ
  | h :: hs, l :: ls, c :: cs => ((h + l + c) / 3) :: typicalPricesSpec hs ls cs
  | _, _, _ => []

/-- The cumulative VWAP loop of calculateVWAP: running sums of
typical price times volume and of volume; when the cumulative
volume is zero the typical price is emitted instead of dividing. -/
def vwapGo (cumTPV cumVol : ℚ) : List ℚ → List ℚ → List ℚ → List ℚ → List ℚ
  | h :: hs, l :: ls, c :: cs, v :: vs =>
    (if cumVol + v = 0 then (h + l + c) / 3
     else (cumTPV + (h + l + c) / 3 * v) / (cumVol + v)) ::
      vwapGo (cumTPV + (h + l + c) / 3 * v) (cumVol + v) hs ls cs vs
  | _, _, _, _ => []

/-- calculateVWAP from indicators.ts: throws on a length mismatch,
otherwise returns the cumulative whole-series VWAP. -/
def calculateVWAP (high low close volume : List ℚ) : Except String (List ℚ) :=
  if high.length = low.length ∧ low.length = close.length ∧
      close.length = volume.length then
    Except.ok (vwapGo 0 0 high low close volume)
  else Except.error "All arrays must have the same length for VWAP calculation."

lemma vwapGo_zero_volume : ∀ (hs ls cs vs : List ℚ) (cumTPV : ℚ),
    hs.length = ls.length → ls.length = cs.length → cs.length = vs.length →
    (∀ x ∈ vs, x = 0) →
    vwapGo cumTPV 0 hs ls cs vs = typicalPricesSpec hs ls cs := by
  intro hs
  induction hs with
  | nil =>
    intro ls cs vs cumTPV h1 h2 h3 hz
    have hls : ls = [] := List.length_eq_zero.mp (by simpa using h1.symm)
    subst hls
    have hcs : cs = [] := List.length_eq_zero.mp (by simpa using h2.symm)
    subst hcs
    rfl
  | cons h hs2 ih =>
    intro ls cs vs cumTPV h1 h2 h3 hz
    cases ls with
    | nil => simp at h1
    | cons l ls2 =>
      cases cs with
      | nil => simp at h2
      | cons c cs2 =>
        cases vs with
        | nil => simp at h3
        | cons v vs2 =>
          have hv : v = 0 := hz v (by simp)
          subst hv
          simp only [vwapGo, typicalPricesSpec, add_zero, mul_zero, zero_add,
            if_true, List.cons.injEq, true_and]
          exact ih ls2 cs2 vs2 _ (by simpa using h1) (by simpa using h2)
            (by simpa using h3) (fun x hx => hz x (by simp [hx]))

/-- C7: when every volume is zero, calculateVWAP returns the typical
price series unchanged: the cumulative volume stays zero, the
division is skipped at every index, and the result is total with no
undefined value. -/
theorem vwap_zero_volume (high low close volume : List ℚ)
    (h1 : high.length = low.length) (h2 : low.length = close.length)
    (h3 : close.length = volume.length) (hz : ∀ x ∈ volume, x = 0) :
    calculateVWAP high low close volume =
      Except.ok (typicalPricesSpec high low close) := by
  unfold calculateVWAP
  rw [if_pos ⟨h1, h2, h3⟩, vwapGo_zero_volume high low close volume 0 h1 h2 h3 hz]

/-- Witness for C7 on a single bar with high 4, low 2, close 3 and
zero volume. -/
theorem vwap_zero_volume_witness :
    (([4] : List ℚ).length = ([2] : List ℚ).length ∧
      ([2] : List ℚ).length = ([3] : List ℚ).length ∧
      ([3] : List ℚ).length = ([0] : List ℚ).length ∧
      ∀ x ∈ ([0] : List ℚ), x = 0) ∧
    calculateVWAP [4] [2] [3] [0] = Except.ok (typicalPricesSpec [4] [2] [3]) :=
  ⟨⟨rfl, rfl, rfl, by simp⟩,
    vwap_zero_volume [4] [2] [3] [0] rfl rfl rfl (by simp)⟩

/-- Winner of one comparison metric. -/
inductive Winner where
  | A
  | B
  | TIE
deriving DecidableEq

/-- Fundamental snapshot with optional fields (absent fields are
valid per the graceful-degradation contract). -/
structure FundamentalData where
  trailingPE : Option ℚ
  priceToBook : Option ℚ
  trailingEps : Option ℚ
deriving DecidableEq

/-- The valuation score of the comparison engine: the trailing PE
when present, otherwise the price-to-book ratio when present,
otherwise absent. The JavaScript code uses Infinity as the absence
sentinel; absence is modelled as none. -/
def valuationScoreSrc (f : FundamentalData) : Option ℚ :=
  match f.trailingPE with
  | some pe => some pe
  | none => f.priceToBook

/-- determineValuationWinner from the comparison engine: both
scores absent is a tie, one absent loses, otherwise the lower
score wins. -/
def determineValuationWinner (fA fB : FundamentalData) : Winner :=
  match valuationScoreSrc fA, valuationScoreSrc fB with
  | none, none => Winner.TIE
  | none, some _ => Winner.B
  | some _, none => Winner.A
  | some a, some b =>
    if a < b then Winner.A else if b < a then Winner.B else Winner.TIE

/-- Modelled from the claim: the valuation score as a value with
plus infinity, trailingPE if present else priceToBook else top. -/
def valuationScoreSpec (f : FundamentalData) : WithTop ℚ :=
  match f.trailingPE with
  | some pe => (pe : WithTop ℚ)
  | none =>
    match f.priceToBook with
    | some pb => (pb : WithTop ℚ)
    | none => ⊤

/-- Modelled from the claim: the lower extended score wins, equal
extended scores tie. -/
def valuationWinnerSpec (fA fB : FundamentalData) : Winner :=
  if valuationScoreSpec fA < valuationScoreSpec fB then Winner.A
  else if valuationScoreSpec fB < valuationScoreSpec fA then Winner.B
  else Winner.TIE

lemma valuationScoreSpec_eq (f : FundamentalData) :
    valuationScoreSpec f = (valuationScoreSrc f).elim ⊤ (fun x => (x : WithTop ℚ)) := by
  unfold valuationScoreSpec valuationScoreSrc
  cases f.trailingPE <;> cases f.priceToBook <;> rfl

/-- C8: the comparison engine valuation winner is decided by the
lower of the extended scores, score being trailingPE if present
else priceToBook else plus infinity, with missing against missing a
tie and one missing losing; in particular trailing PE 10 against
trailing PE 20 with every other field absent gives winner A. -/
theorem valuation_winner_correct :
    (∀ fA fB : FundamentalData,
      determineValuationWinner fA fB = valuationWinnerSpec fA fB) ∧
    determineValuationWinner ⟨some 10, none, none⟩ ⟨some 20, none, none⟩ = Winner.A := by
  constructor
  · intro fA fB
    unfold determineValuationWinner valuationWinnerSpec
    rw [valuationScoreSpec_eq, valuationScoreSpec_eq]
    rcases hA : valuationScoreSrc fA with _ | a <;>
      rcases hB : valuationScoreSrc fB with _ | b
    · simp
    · simp [Option.elim]
    · simp [Option.elim]
    · simp only [Option.elim]
      rcases lt_trichotomy a b with h | h | h
      · rw [if_pos h, if_pos (by exact_mod_cast h)]
      · subst h
        simp
      · rw [if_neg (not_lt.mpr h.le), if_pos h,
          if_neg (by exact_mod_cast not_lt.mpr h.le), if_pos (by exact_mod_cast h)]
  · decide

/-- The per-item catch of scanMarket: a per-symbol analysis outcome,
success or an error-tagged record; the record is an Except error. -/
def scanResultOf {α : Type} (r : Except String α) : Option α :=
  match r with
  | Except.ok a => some a
  | Except.error _ => none

/-- processInBatches specialized to the concurrency limit 5 used by
scanMarket: the items are processed in groups of five and the group
results are concatenated in order. -/
def processInBatches5 {τ β : Type} (f : τ → β) : List τ → List β
  | [] => []
  | a :: b :: c :: d :: e :: rest =>
    f a :: f b :: f c :: f d :: f e :: processInBatches5 f rest
  | l => l.map f

lemma processInBatches5_eq_map {τ β : Type} (f : τ → β) :
    ∀ l : List τ, processInBatches5 f l = l.map f := by
  have general : ∀ (n : ℕ) (l : List τ), l.length ≤ n →
      processInBatches5 f l = l.map f := by
    intro n
    induction n with
    | zero =>
      intro l hl
      have : l = [] := List.length_eq_zero.mp (Nat.le_zero.mp hl)
      subst this
      rfl
    | succ n ih =>
      intro l hl
      match l with
      | [] => rfl
      | [a] => rfl
      | [a, b] => rfl
      | [a, b, c] => rfl
      | [a, b, c, d] => rfl
      | a :: b :: c :: d :: e :: rest =>
        have hr : rest.length ≤ n := by
          simp only [List.length_cons] at hl
          omega
        simp [processInBatches5, ih rest hr]
  intro l
  exact general l.length l le_rfl

/-- The market scan over a per-symbol analysis function f: every
per-symbol failure is caught and turned into an error record, the
error records are filtered out, and the batch call itself always
returns a success value with the surviving results. -/
def scanMarket {τ α : Type} (f : τ → Except String α) (tickers : List τ) :
    Except String (List α) :=
  Except.ok ((processInBatches5 f tickers).filterMap scanResultOf)

/-- A demonstration analysis function that fails on symbol 2 only. -/
def demoAnalyze : ℕ → Except String ℕ :=
  fun t => if t = 2 then Except.error "fetch failed" else Except.ok t

/-- C9: the batch market scan never raises: for every per-symbol
analysis function and every symbol list it returns a success value
holding exactly the successful analyses in order, with each failed
symbol converted to an error record and omitted; in particular a
scan of five symbols where one fails returns the four successful
results. -/
theorem scanMarket_isolates_failures :
    (∀ (τ α : Type) (f : τ → Except String α) (tickers : List τ),
      scanMarket f tickers =
        Except.ok (tickers.filterMap (fun t => scanResultOf (f t)))) ∧
    scanMarket demoAnalyze [0, 1, 2, 3, 4] = Except.ok [0, 1, 3, 4] := by
  constructor
  · intro τ α f tickers
    unfold scanMarket
    rw [processInBatches5_eq_map, List.filterMap_map]
    rfl
  · rfl

/-- Candlestick pattern tags. -/
inductive CandleName where
  | bullishEngulfing
  | bearishEngulfing
  | hammer
  | shootingStar
  | doji
deriving DecidableEq

/-- Body size of a candle. -/
def bodySize (c : StockData) : ℚ := |c.close - c.opn|

/-- High-to-low range of a candle. -/
def rangeSize (c : StockData) : ℚ := c.high - c.low

/-- Upper shadow of a candle. -/
def upperShadow (c : StockData) : ℚ := c.high - max c.opn c.close

/-- Lower shadow of a candle. -/
def lowerShadow (c : StockData) : ℚ := min c.opn c.close - c.low

/-- A candle that closed above its open. -/
def isBullish (c : StockData) : Prop := c.opn < c.close

/-- A candle that closed below its open. -/
def isBearish (c : StockData) : Prop := c.close < c.opn

/-- Bullish engulfing condition of detectCandlePatterns. -/
def bullishEngulfingCond (prev current : StockData) : Prop :=
  isBearish prev ∧ isBullish current ∧ current.opn < prev.close ∧
    prev.opn < current.close ∧ bodySize prev * (11 / 10) < bodySize current

/-- Bearish engulfing condition of detectCandlePatterns. -/
def bearishEngulfingCond (prev current : StockData) : Prop :=
  isBullish prev ∧ isBearish current ∧ prev.close < current.opn ∧
    current.close < prev.opn ∧ bodySize prev * (11 / 10) < bodySize current

/-- Hammer condition of detectCandlePatterns. -/
def hammerCond (current : StockData) : Prop :=
  0 < rangeSize current ∧ bodySize current < rangeSize current * (3 / 10) ∧
    bodySize current * 2 < lowerShadow current ∧
    upperShadow current < bodySize current * (1 / 2)

/-- Shooting star condition of detectCandlePatterns. -/
def shootingStarCond (current : StockData) : Prop :=
  0 < rangeSize current ∧ bodySize current < rangeSize current * (3 / 10) ∧
    bodySize current * 2 < upperShadow current ∧
    lowerShadow current < bodySize current * (1 / 2) ∧ isBearish current

/-- Doji condition of detectCandlePatterns. -/
def dojiCond (current : StockData) : Prop :=
  0 < rangeSize current ∧ bodySize current < rangeSize current * (1 / 10)

instance (prev current : StockData) : Decidable (bullishEngulfingCond prev current) := by
  unfold bullishEngulfingCond isBearish isBullish
  infer_instance

instance (prev current : StockData) : Decidable (bearishEngulfingCond prev current) := by
  unfold bearishEngulfingCond isBearish isBullish
  infer_instance

instance (current : StockData) : Decidable (hammerCond current) := by
  unfold hammerCond
  infer_instance

instance (current : StockData) : Decidable (shootingStarCond current) := by
  unfold shootingStarCond isBearish
  infer_instance

instance (current : StockData) : Decidable (dojiCond current) := by
  unfold dojiCond
  infer_instance

/-- The pattern tags pushed for the last candle and its
predecessor, in source order. -/
def patternsOf (prev current : StockData) : List CandleName :=
  (if bullishEngulfingCond prev current then [CandleName.bullishEngulfing] else []) ++
  (if bearishEngulfingCond prev current then [CandleName.bearishEngulfing] else []) ++
  (if hammerCond current then [CandleName.hammer] else []) ++
  (if shootingStarCond current then [CandleName.shootingStar] else []) ++
  (if dojiCond current then [CandleName.doji] else [])

/-- The last two elements of a list, when it has at least two. -/
def lastTwo {α : Type} : List α → Option (α × α)
  | [a, b] => some (a, b)
  | _ :: rest => lastTwo rest
  | [] => none

/-- detectCandlePatterns: empty for fewer than two bars, otherwise
the tags for the last candle against its predecessor (the function
slices the last five bars but reads only the last two). -/
def detectCandlePatterns (historicalData : List StockData) : List CandleName :=
  match lastTwo historicalData with
  | some (prev, current) => patternsOf prev current
  | none => []

/-- C10: no bar series is tagged with both Hammer and Shooting
Star: the hammer needs an upper shadow below half the body while
the shooting star needs one above twice the body, impossible for a
nonnegative body size. -/
lemma mem_patternsOf_hammer (prev current : StockData) :
    CandleName.hammer ∈ patternsOf prev current ↔ hammerCond current := by
  unfold patternsOf
  split_ifs <;> simp_all

lemma mem_patternsOf_shootingStar (prev current : StockData) :
    CandleName.shootingStar ∈ patternsOf prev current ↔ shootingStarCond current := by
  unfold patternsOf
  split_ifs <;> simp_all

theorem patterns_hammer_star_exclusive (historicalData : List StockData) :
    ¬(CandleName.hammer ∈ detectCandlePatterns historicalData ∧
      CandleName.shootingStar ∈ detectCandlePatterns historicalData) := by
  rintro ⟨hh, hs⟩
  unfold detectCandlePatterns at hh hs
  rcases hlt : lastTwo historicalData with _ | ⟨prev, current⟩
  · rw [hlt] at hh
    simp at hh
  · rw [hlt] at hh hs
    have hhc : hammerCond current := (mem_patternsOf_hammer prev current).mp hh
    have hsc : shootingStarCond current :=
      (mem_patternsOf_shootingStar prev current).mp hs
    have hb : 0 ≤ bodySize current := abs_nonneg _
    have h1 := hhc.2.2.2
    have h2 := hsc.2.2.1
    linarith

/-- Intraday bias. -/
inductive Bias where
  | BULLISH
  | BEARISH
  | SIDEWAYS
deriving DecidableEq

/-- The calendar-day bucket of a millisecond timestamp. The source
derives a year-month-day key from the local clock; the embedding
buckets by whole days of 86400000 milliseconds, which preserves the
property that bars of different days get different keys. -/
def dateKey (ts : ℤ) : ℤ := ts / 86400000

/-- The session VWAP loop of calculateSessionVWAP: cumulative sums
of typical price times volume and of volume, reset whenever the
calendar day of the bar changes; division skipped while the
cumulative volume is zero. -/
def sessionVWAPGo (currentDate : Option ℤ) (cumTPV cumVol : ℚ) :
    List StockData → List ℚ
  | [] => []
  | b :: rest =>
    let dk := dateKey b.timestamp
    let cumTPV0 := if some dk = currentDate then cumTPV else 0
    let cumVol0 := if some dk = currentDate then cumVol else 0
    let tp := (b.high + b.low + b.close) / 3
    let ctpv := cumTPV0 + tp * b.volume
    let cvol := cumVol0 + b.volume
    (if cvol = 0 then tp else ctpv / cvol) :: sessionVWAPGo (some dk) ctpv cvol rest

/-- calculateSessionVWAP from indicators.ts, starting with no
current date so the first bar always reseeds. -/
def calculateSessionVWAP (data : List StockData) : List ℚ :=
  sessionVWAPGo none 0 0 data

/-- Maximum of a list with a default for the empty list. -/
def listMaxD (l : List ℚ) (dflt : ℚ) : ℚ :=
  match l with
  | [] => dflt
  | x :: xs => xs.foldl max x

/-- Minimum of a list with a default for the empty list. -/
def listMinD (l : List ℚ) (dflt : ℚ) : ℚ :=
  match l with
  | [] => dflt
  | x :: xs => xs.foldl min x

/-- The numeric outputs of the intraday analyzer. -/
structure IntradayCore where
  bias : Bias
  score : ℤ
  entry : ℤ
  sl : ℤ
  tp1 : ℤ
  tp2 : ℤ
  orHigh : ℤ
  orLow : ℤ
  currentVWAP : ℤ
deriving DecidableEq

/-- The opening range high of analyzeIntraday: the highest high of
the first three bars of today, of all of today when fewer than
three, or of the first three bars of the whole series when today is
empty; the current price when even that subset is empty. -/
def openingRangeHigh (todayData data5m : List StockData) (currentPrice : ℚ) : ℚ :=
  if 3 ≤ todayData.length then
    listMaxD ((todayData.take 3).map (fun d => d.high)) currentPrice
  else if 0 < todayData.length then
    listMaxD (todayData.map (fun d => d.high)) currentPrice
  else
    listMaxD ((data5m.take 3).map (fun d => d.high)) currentPrice

/-- The opening range low, symmetric to the opening range high. -/
def openingRangeLow (todayData data5m : List StockData) (currentPrice : ℚ) : ℚ :=
  if 3 ≤ todayData.length then
    listMinD ((todayData.take 3).map (fun d => d.low)) currentPrice
  else if 0 < todayData.length then
    listMinD (todayData.map (fun d => d.low)) currentPrice
  else
    listMinD ((data5m.take 3).map (fun d => d.low)) currentPrice

/-- The intraday computation of analyzeIntraday once the bars of
the current calendar day have been selected: opening range, session
VWAP, bias against VWAP and the opening range, the 0 to 99 score,
and the ATR trading plan. The latest RSI and latest ATR come from
the external technicalindicators package (with neutral fallbacks)
and enter as inputs. -/
def intradayCoreOnToday (todayData data5m : List StockData)
    (currentPrice latestRSI latestATR : ℚ) : IntradayCore :=
  let orHigh : ℚ := openingRangeHigh todayData data5m currentPrice
  let orLow : ℚ := openingRangeLow todayData data5m currentPrice
  let sessionVWAP := calculateSessionVWAP data5m
  let currentVWAP : ℚ :=
    match sessionVWAP.getLast? with
    | some v => v
    | none => currentPrice
  let bias : Bias :=
    if currentVWAP < currentPrice ∧ orHigh < currentPrice then Bias.BULLISH
    else if currentPrice < currentVWAP ∧ currentPrice < orLow then Bias.BEARISH
    else Bias.SIDEWAYS
  let volumes5m := data5m.map (fun d => d.volume)
  let avgVolume := volumes5m.sum / (volumes5m.length : ℚ)
  let latestVolume : ℚ :=
    match volumes5m.getLast? with
    | some v => v
    | none => 0
  let score : ℚ := 50 + (if bias = Bias.BULLISH then 20 else 0) +
    (if 70 < latestRSI then -10 else 0) +
    (if latestRSI < 30 ∧ bias = Bias.BULLISH then 10 else 0) +
    (if avgVolume < latestVolume then 20 else 0)
  let clampedScore := max 0 (min 99 score)
  { bias := bias
    score := jround clampedScore
    entry := jround currentPrice
    sl := jround (currentPrice - 2 * latestATR)
    tp1 := jround (currentPrice + 2 * latestATR)
    tp2 := jround (currentPrice + 4 * latestATR)
    orHigh := jround orHigh
    orLow := jround orLow
    currentVWAP := jround currentVWAP }

/-- analyzeIntraday: the wall clock enters as todayKey, the
calendar day the run happens on, which selects the bars counted as
today for the opening range. The 15-minute series is only checked
for emptiness by the source and does not influence the outputs. -/
def analyzeIntradayCore (todayKey : ℤ) (data5m data15m : List StockData)
    (currentPrice latestRSI latestATR : ℚ) : IntradayCore :=
  intradayCoreOnToday (data5m.filter (fun b => dateKey b.timestamp == todayKey))
    data5m currentPrice latestRSI latestATR

/-- C3: for any positive ATR the trading plan fields of the
intraday analysis are exactly the JavaScript roundings of
entry - 2 ATR, entry + 2 ATR and entry + 4 ATR, with entry the
current price, itself rounded in the returned plan. -/
theorem intradayPlan_formulas (todayKey : ℤ) (data5m data15m : List StockData)
    (price rsi atr : ℚ) (hatr : 0 < atr) :
    (analyzeIntradayCore todayKey data5m data15m price rsi atr).entry = jround price ∧
    (analyzeIntradayCore todayKey data5m data15m price rsi atr).sl =
      jround (price - 2 * atr) ∧
    (analyzeIntradayCore todayKey data5m data15m price rsi atr).tp1 =
      jround (price + 2 * atr) ∧
    (analyzeIntradayCore todayKey data5m data15m price rsi atr).tp2 =
      jround (price + 4 * atr) :=
  ⟨rfl, rfl, rfl, rfl⟩

/-- Witness for C3 with ATR 2 and price 100 on an empty series. -/
theorem intradayPlan_formulas_witness :
    (0 : ℚ) < 2 ∧
    ((analyzeIntradayCore 0 [] [] 100 50 2).entry = jround 100 ∧
     (analyzeIntradayCore 0 [] [] 100 50 2).sl = jround (100 - 2 * 2) ∧
     (analyzeIntradayCore 0 [] [] 100 50 2).tp1 = jround (100 + 2 * 2) ∧
     (analyzeIntradayCore 0 [] [] 100 50 2).tp2 = jround (100 + 4 * 2)) :=
  ⟨by norm_num, intradayPlan_formulas 0 [] [] 100 50 2 (by norm_num)⟩

/-- A bar on calendar day zero with a wide range. -/
def cexBarDayZero : StockData := ⟨0, 10, 12, 8, 10, 100⟩

/-- A bar on calendar day one with a narrow range. -/
def cexBarDayOne : StockData := ⟨86400000, 5, 6, 4, 5, 100⟩

/-- Counterexample for C4: the intraday computation is not
independent of wall-clock time. On the same two-day bar series and
the same current price, running on day one takes the opening range
from the single bar of that day, while running on day two finds no
bars of today and falls back to the first three bars of the whole
series, so the opening range high differs and the outputs differ. -/
theorem intraday_depends_on_wallclock :
    analyzeIntradayCore 1 [cexBarDayZero, cexBarDayOne] [] 10 50 1 ≠
      analyzeIntradayCore 2 [cexBarDayZero, cexBarDayOne] [] 10 50 1 := by
  intro h
  have hh := congrArg IntradayCore.orHigh h
  have p1 : (analyzeIntradayCore 1 [cexBarDayZero, cexBarDayOne] [] 10 50 1).orHigh =
      jround (openingRangeHigh
        (([cexBarDayZero, cexBarDayOne] : List StockData).filter
          (fun b => dateKey b.timestamp == 1))
        [cexBarDayZero, cexBarDayOne] 10) := rfl
  have p2 : (analyzeIntradayCore 2 [cexBarDayZero, cexBarDayOne] [] 10 50 1).orHigh =
      jround (openingRangeHigh
        (([cexBarDayZero, cexBarDayOne] : List StockData).filter
          (fun b => dateKey b.timestamp == 2))
        [cexBarDayZero, cexBarDayOne] 10) := rfl
  have v1 : openingRangeHigh
      (([cexBarDayZero, cexBarDayOne] : List StockData).filter
        (fun b => dateKey b.timestamp == 1))
      [cexBarDayZero, cexBarDayOne] 10 = 6 := by decide
  have v2 : openingRangeHigh
      (([cexBarDayZero, cexBarDayOne] : List StockData).filter
        (fun b => dateKey b.timestamp == 2))
      [cexBarDayZero, cexBarDayOne] 10 = 12 := by decide
  rw [p1, p2, v1, v2] at hh
  have f1 : jround (6 : ℚ) = 6 := by norm_num [jround]
  have f2 : jround (12 : ℚ) = 12 := by norm_num [jround]
  rw [f1, f2] at hh
  exact absurd hh (by norm_num)

/-- C4 amended: the intraday opening-range, bias, score and plan
computation is a pure function of the 5-minute bar series, the
current price, the latest indicator values and the current calendar
day, and it reads the calendar day only through which bars count as
today: two runs on identical inputs whose calendar days select the
same today subset produce identical outputs. -/
theorem intraday_deterministic_given_today (k1 k2 : ℤ)
    (data5m data15m : List StockData) (price rsi atr : ℚ)
    (hfilter : data5m.filter (fun b => dateKey b.timestamp == k1) =
      data5m.filter (fun b => dateKey b.timestamp == k2)) :
    analyzeIntradayCore k1 data5m data15m price rsi atr =
      analyzeIntradayCore k2 data5m data15m price rsi atr := by
  unfold analyzeIntradayCore
  rw [hfilter]

/-- Witness for the amended C4: days one and two select the same
(empty) today subset of a day-zero series, so the outputs agree. -/
theorem intraday_deterministic_given_today_witness :
    (([cexBarDayZero] : List StockData).filter (fun b => dateKey b.timestamp == 1) =
      ([cexBarDayZero] : List StockData).filter (fun b => dateKey b.timestamp == 2)) ∧
    analyzeIntradayCore 1 [cexBarDayZero] [] 10 50 1 =
      analyzeIntradayCore 2 [cexBarDayZero] [] 10 50 1 :=
  ⟨by decide, intraday_deterministic_given_today 1 2 [cexBarDayZero] [] 10 50 1 (by decide)⟩

end IdxStockSense
